import Mathlib

/-!
Verification development for the SEBI regulatory-website scraper
(`new_main.py`, class `SEBIScraper`): a shallow embedding of its URL
normalisation, pagination, date filtering, link resolution, download and
orchestration logic, together with theorems about that embedding.

Modelling conventions:
* Strings are modelled as `List Char` (`Str`), so that list lemmas apply.
* Network and file-system effects are modelled by explicit collaborator
  functions (fetch outcomes per attempt / per request index, a file-existence
  predicate) and by event traces listing the side effects a call performs.
* Percent-encoding/decoding of URL components is treated as an external
  codec and modelled as the identity; all inputs exercised here contain only
  unreserved characters, on which the real codec is also the identity.
* `urllib.parse.urljoin` is modelled for the reference shapes the scraper
  produces (absolute references, scheme-relative, root-relative, and
  relative references against a base whose path ends in a slash);
  dot-segment normalisation never arises for these shapes.
-/

/-- Strings of the scraped site model, as lists of characters. -/
abbrev Str := List Char

/-- Characters allowed in a URL scheme after the initial letter
(`urllib.parse.scheme_chars`). -/
def isSchemeChar (c : Char) : Bool :=
  c.isAlphanum || c == '+' || c == '-' || c == '.'

/-- After the first character of a candidate scheme: scheme characters up to
a colon. -/
def schemeRest : Str → Bool
  | [] => false
  | c :: rest => if c == ':' then true else isSchemeChar c && schemeRest rest

/-- Whether a reference begins with a URL scheme (letter, scheme characters,
colon), as `urllib.parse.urlparse` recognises one. -/
def hasScheme : Str → Bool
  | [] => false
  | c :: rest => c.isAlpha && schemeRest rest

/-- The base path up to and including its last slash (the path-merge step of
`urljoin` for relative references). -/
def pathDir (p : Str) : Str :=
  ((p.reverse).dropWhile (fun c => c != '/')).reverse

/-- Model of `urllib.parse.urljoin(base, url)` with the base URL given as
scheme, network location and path.  Covers absolute references,
scheme-relative (`//…`) references, root-relative (`/…`) references and
relative references; dot-segments are out of scope (none arise here). -/
def urljoinParts (scheme netloc basePath url : Str) : Str :=
  if url.isEmpty then scheme ++ "://".toList ++ netloc ++ basePath
  else if hasScheme url then url
  else if "//".toList.isPrefixOf url then scheme ++ [':'] ++ url
  else if url.headD ' ' == '/' then scheme ++ "://".toList ++ netloc ++ url
  else if basePath.isEmpty then scheme ++ "://".toList ++ netloc ++ ['/'] ++ url
  else scheme ++ "://".toList ++ netloc ++ pathDir basePath ++ url

/-- `SEBIScraper.base_url`. -/
def siteRoot : Str := "https://www.sebi.gov.in".toList

/-- Host part of the site root. -/
def sebiHost : Str := "www.sebi.gov.in".toList

/-- Path part of `SEBIScraper.attachdocs_base`. -/
def attachPath : Str := "/sebi_data/attachdocs/".toList

/-- `SEBIScraper.attachdocs_base`. -/
def attachdocsBase : Str := "https://www.sebi.gov.in/sebi_data/attachdocs/".toList

/-- Model of `SEBIScraper.fix_pdf_url`: `None` for a falsy (empty) input;
URLs starting with `http` returned unchanged; paths under the attachment
store (with or without leading slash) joined against the site root; anything
else joined against the attachment-store base URL. -/
def fix_pdf_url (pdf_url : Str) : Option Str :=
  if pdf_url.isEmpty then none
  else if "http".toList.isPrefixOf pdf_url then some pdf_url
  else if "/sebi_data/attachdocs".toList.isPrefixOf pdf_url then
    some (urljoinParts "https".toList sebiHost [] pdf_url)
  else if "sebi_data/attachdocs".toList.isPrefixOf pdf_url then
    some (urljoinParts "https".toList sebiHost [] ('/' :: pdf_url))
  else
    some (urljoinParts "https".toList sebiHost attachPath pdf_url)

example : fix_pdf_url "https://www.sebi.gov.in/x/a.pdf".toList
    = some "https://www.sebi.gov.in/x/a.pdf".toList := by decide

example : fix_pdf_url "/sebi_data/attachdocs/a.pdf".toList
    = some "https://www.sebi.gov.in/sebi_data/attachdocs/a.pdf".toList := by decide

example : fix_pdf_url "sebi_data/attachdocs/a.pdf".toList
    = some "https://www.sebi.gov.in/sebi_data/attachdocs/a.pdf".toList := by decide

example : fix_pdf_url "foo/a.pdf".toList
    = some "https://www.sebi.gov.in/sebi_data/attachdocs/foo/a.pdf".toList := by decide

example : fix_pdf_url "/other/a.pdf".toList
    = some "https://www.sebi.gov.in/other/a.pdf".toList := by decide

example : fix_pdf_url [] = none := by decide

/-- Lower-casing of a string (`str.lower()` on the ASCII content-type
values in scope). -/
def lowerStr (s : Str) : Str := s.map Char.toLower

/-- Python's `in` test on strings: `pat` occurs contiguously in `s`. -/
def strContains (s pat : Str) : Bool := decide (pat <:+: s)

/-- Outcome of one `session.get` of a document URL followed by
`raise_for_status`: either a `requests.RequestException` (transport error or
HTTP error status) or a response with its declared content type and body. -/
inductive FetchRes
  | exn
  | resp (contentType : Str) (body : Str)

/-- Side effects a `download_pdf` call performs, in order: directory
creation, network fetches, file writes and sleeps. -/
inductive DEv
  | mkdirEv (p : Str)
  | fetchEv (u : Str)
  | writeEv (p : Str) (data : Str)
  | sleepEv (n : Nat)
deriving DecidableEq

/-- The character allow-list of `download_pdf`'s sanitisation step:
`c.isalnum() or c in (' ', '-', '_', '.')` (ASCII alphanumerics in scope). -/
def sanitize (s : Str) : Str :=
  s.filter (fun c => c.isAlphanum || c == ' ' || c == '-' || c == '_' || c == '.')

/-- `os.path.join('downloaded_data', folder_name)` on a POSIX system. -/
def folderPathOf (folder : Str) : Str := "downloaded_data/".toList ++ folder

/-- `os.path.join(folder_path, file_name)` after sanitisation. -/
def filePathOf (folder sanitizedName : Str) : Str :=
  folderPathOf folder ++ ['/'] ++ sanitizedName

/-- Content of the sidecar metadata file: download timestamp and source URL. -/
def metaText (now u : Str) : Str :=
  "Downloaded: ".toList ++ now ++ "\nSource URL: ".toList ++ u

/-- `max_retries` in `download_pdf`. -/
def maxRetries : Nat := 3

/-- The `for attempt in range(max_retries)` loop of `download_pdf`: fetch the
fixed URL, on success check that the content type contains
`application/pdf` or the URL ends in `.pdf` and then write the file and its
metadata sidecar; on a `RequestException` either give up (last attempt) or
sleep `2 ** attempt` seconds and try again.  The second argument counts the
remaining iterations (`maxRetries - attempt`). -/
def downloadAttempts (net : Nat → FetchRes) (u fp mp now : Str) :
    Nat → Nat → Bool × List DEv
  | _, 0 => (false, [])
  | attempt, fuel+1 =>
    match net attempt with
    | .resp ct body =>
      if strContains (lowerStr ct) "application/pdf".toList
          || ".pdf".toList.isSuffixOf u then
        (true, [.fetchEv u, .writeEv fp body, .writeEv mp (metaText now u)])
      else (false, [.fetchEv u])
    | .exn =>
      if attempt == maxRetries - 1 then (false, [.fetchEv u])
      else
        let r := downloadAttempts net u fp mp now (attempt + 1) fuel
        (r.1, .fetchEv u :: .sleepEv (2 ^ attempt) :: r.2)

/-- Model of `SEBIScraper.download_pdf`: ensure the folder exists, sanitise
the file name, skip when the target file already exists, normalise the URL
(failing when normalisation yields `None`), then run the retry loop.
`fs` is the file-system existence predicate at call time, `net` gives the
outcome of the fetch at each attempt index, `now` the current timestamp. -/
def download_pdf (fs : Str → Bool) (net : Nat → FetchRes) (now : Str)
    (pdf_url folder_name file_name : Str) : Bool × List DEv :=
  let folder_path := folderPathOf folder_name
  let fname := sanitize file_name
  let file_path := filePathOf folder_name fname
  let metadata_path := file_path ++ ".meta".toList
  if fs file_path then (true, [.mkdirEv folder_path])
  else
    match fix_pdf_url pdf_url with
    | none => (false, [.mkdirEv folder_path])
    | some u =>
      let r := downloadAttempts net u file_path metadata_path now 0 maxRetries
      (r.1, .mkdirEv folder_path :: r.2)

/-- Number of network fetches recorded in a download trace. -/
def countFetch : List DEv → Nat
  | [] => 0
  | .fetchEv _ :: rest => countFetch rest + 1
  | _ :: rest => countFetch rest

/-- A parsed calendar date (`datetime` with the time fields zero, as
`strptime` produces for date-only formats). -/
structure PDate where
  year : Nat
  month : Nat
  day : Nat
deriving DecidableEq

/-- Lexicographic comparison of dates, the order `datetime.__ge__` uses on
midnight instants. -/
def dateLe (a b : PDate) : Bool :=
  Nat.blt a.year b.year
  || (a.year == b.year
      && (Nat.blt a.month b.month
          || (a.month == b.month && Nat.ble a.day b.day)))

/-- Numeric value of a decimal digit character. -/
def digitVal (c : Char) : Nat := c.toNat - '0'.toNat

/-- The `%d` directive of `_strptime`: regex `3[01]|[12]\d|0[1-9]|[1-9]`,
alternatives tried in order, returning the value and the rest of the
input. -/
def parseDay2 : Str → Option (Nat × Str)
  | c1 :: c2 :: rest =>
    if c1 == '3' && (c2 == '0' || c2 == '1') then some (30 + digitVal c2, rest)
    else if (c1 == '1' || c1 == '2') && c2.isDigit then
      some (digitVal c1 * 10 + digitVal c2, rest)
    else if c1 == '0' && (c2.isDigit && c2 != '0') then some (digitVal c2, rest)
    else if c1.isDigit && c1 != '0' then some (digitVal c1, c2 :: rest)
    else none
  | [c1] => if c1.isDigit && c1 != '0' then some (digitVal c1, []) else none
  | [] => none

/-- The `%m` directive of `_strptime`: regex `1[0-2]|0[1-9]|[1-9]`. -/
def parseMonth2 : Str → Option (Nat × Str)
  | c1 :: c2 :: rest =>
    if c1 == '1' && (c2 == '0' || c2 == '1' || c2 == '2') then
      some (10 + digitVal c2, rest)
    else if c1 == '0' && (c2.isDigit && c2 != '0') then some (digitVal c2, rest)
    else if c1.isDigit && c1 != '0' then some (digitVal c1, c2 :: rest)
    else none
  | [c1] => if c1.isDigit && c1 != '0' then some (digitVal c1, []) else none
  | [] => none

/-- The `%Y` directive of `_strptime`: exactly four decimal digits. -/
def parseYear4 : Str → Option (Nat × Str)
  | a :: b :: c :: d :: rest =>
    if a.isDigit && b.isDigit && c.isDigit && d.isDigit then
      some (((digitVal a * 10 + digitVal b) * 10 + digitVal c) * 10 + digitVal d, rest)
    else none
  | _ => none

/-- A literal character of a `strptime` format string. -/
def parseLit (ch : Char) : Str → Option Str
  | c :: rest => if c == ch then some rest else none
  | [] => none

/-- Whitespace in a `strptime` format string matches one or more whitespace
characters of the input. -/
def parseWs1 : Str → Option Str
  | c :: rest =>
    if c.isWhitespace then some (rest.dropWhile Char.isWhitespace) else none
  | [] => none

/-- Abbreviated month names matched case-insensitively by `%b` (C locale). -/
def monthAbbrs : List (Str × Nat) :=
  [("jan".toList, 1), ("feb".toList, 2), ("mar".toList, 3), ("apr".toList, 4),
   ("may".toList, 5), ("jun".toList, 6), ("jul".toList, 7), ("aug".toList, 8),
   ("sep".toList, 9), ("oct".toList, 10), ("nov".toList, 11), ("dec".toList, 12)]

/-- Full month names matched case-insensitively by `%B` (C locale). -/
def monthFulls : List (Str × Nat) :=
  [("january".toList, 1), ("february".toList, 2), ("march".toList, 3),
   ("april".toList, 4), ("may".toList, 5), ("june".toList, 6),
   ("july".toList, 7), ("august".toList, 8), ("september".toList, 9),
   ("october".toList, 10), ("november".toList, 11), ("december".toList, 12)]

/-- Match one of the month names (none is a proper prefix of another) at the
start of the input, case-insensitively. -/
def parseMonthName (names : List (Str × Nat)) (s : Str) : Option (Nat × Str) :=
  match names with
  | [] => none
  | (nm, idx) :: rest =>
    if lowerStr (s.take nm.length) == nm then some (idx, s.drop nm.length)
    else parseMonthName rest s

/-- Day count of a month, with the Gregorian leap rule `datetime` uses. -/
def daysInMonth (y m : Nat) : Nat :=
  if m == 2 then
    (if y % 4 == 0 && (y % 100 != 0 || y % 400 == 0) then 29 else 28)
  else if m == 4 || m == 6 || m == 9 || m == 11 then 30 else 31

/-- The `datetime(year, month, day)` constructor: validates calendar ranges
(`MINYEAR ≤ year ≤ MAXYEAR`, month and day in range), raising — here,
returning `none` — otherwise. -/
def mkDate (y m d : Nat) : Option PDate :=
  if 1 ≤ y && y ≤ 9999 && 1 ≤ m && m ≤ 12 && 1 ≤ d && d ≤ daysInMonth y m then
    some ⟨y, m, d⟩
  else none

/-- `strptime(s, "%d-%m-%Y")`, including the full-match requirement. -/
def fmt_dmY (s : Str) : Option PDate := do
  let (d, s) ← parseDay2 s
  let s ← parseLit '-' s
  let (m, s) ← parseMonth2 s
  let s ← parseLit '-' s
  let (y, s) ← parseYear4 s
  if s.isEmpty then mkDate y m d else none

/-- `strptime(s, "%Y-%m-%d")`. -/
def fmt_Ymd (s : Str) : Option PDate := do
  let (y, s) ← parseYear4 s
  let s ← parseLit '-' s
  let (m, s) ← parseMonth2 s
  let s ← parseLit '-' s
  let (d, s) ← parseDay2 s
  if s.isEmpty then mkDate y m d else none

/-- `strptime(s, "%d/%m/%Y")`. -/
def fmt_dmY_slash (s : Str) : Option PDate := do
  let (d, s) ← parseDay2 s
  let s ← parseLit '/' s
  let (m, s) ← parseMonth2 s
  let s ← parseLit '/' s
  let (y, s) ← parseYear4 s
  if s.isEmpty then mkDate y m d else none

/-- `strptime(s, "%b %d, %Y")`. -/
def fmt_bdY (s : Str) : Option PDate := do
  let (m, s) ← parseMonthName monthAbbrs s
  let s ← parseWs1 s
  let (d, s) ← parseDay2 s
  let s ← parseLit ',' s
  let s ← parseWs1 s
  let (y, s) ← parseYear4 s
  if s.isEmpty then mkDate y m d else none

/-- `strptime(s, "%B %d, %Y")`. -/
def fmt_BdY (s : Str) : Option PDate := do
  let (m, s) ← parseMonthName monthFulls s
  let s ← parseWs1 s
  let (d, s) ← parseDay2 s
  let s ← parseLit ',' s
  let s ← parseWs1 s
  let (y, s) ← parseYear4 s
  if s.isEmpty then mkDate y m d else none

/-- `strptime(s, "%Y")` (month and day default to 1). -/
def fmt_Y (s : Str) : Option PDate := do
  let (y, s) ← parseYear4 s
  if s.isEmpty then mkDate y 1 1 else none

/-- `str.strip()`: drop whitespace at both ends. -/
def pyStrip (s : Str) : Str :=
  ((s.dropWhile Char.isWhitespace).reverse.dropWhile Char.isWhitespace).reverse

/-- The ordered format list of `SEBIScraper.parse_date`. -/
def dateFormats : List (Str → Option PDate) :=
  [fmt_dmY, fmt_Ymd, fmt_dmY_slash, fmt_bdY, fmt_BdY, fmt_Y]

/-- First successful parser of an ordered list. -/
def firstParse : List (Str → Option PDate) → Str → Option PDate
  | [], _ => none
  | f :: fs, s =>
    match f s with
    | some d => some d
    | none => firstParse fs s

/-- Model of `SEBIScraper.parse_date`: try the format patterns in order on
the stripped input; on success, a four-character original input is
normalised to January 1 of its year; `None` when every pattern fails. -/
def parse_date (s : Str) : Option PDate :=
  match firstParse dateFormats (pyStrip s) with
  | some d => some (if s.length == 4 then { d with month := 1, day := 1 } else d)
  | none => none

/-- Model of `SEBIScraper.is_after_cutoff`: `True` when no cutoff is
configured; `parsed >= cutoff` when the date parses; `True` (fail-open,
with a warning) when it does not. -/
def is_after_cutoff (cutoff : Option PDate) (date_str : Str) : Bool :=
  match cutoff with
  | none => true
  | some c =>
    match parse_date date_str with
    | some d => dateLe c d
    | none => true

example : parse_date "01-02-2024".toList = some ⟨2024, 2, 1⟩ := by decide

example : parse_date "2024-02-01".toList = some ⟨2024, 2, 1⟩ := by decide

example : parse_date "1/2/2024".toList = some ⟨2024, 2, 1⟩ := by decide

example : parse_date "Feb 1, 2024".toList = some ⟨2024, 2, 1⟩ := by decide

example : parse_date "February 1, 2024".toList = some ⟨2024, 2, 1⟩ := by decide

example : parse_date "2024".toList = some ⟨2024, 1, 1⟩ := by decide

example : parse_date "31-02-2023".toList = none := by decide

example : parse_date "29-02-2024".toList = some ⟨2024, 2, 29⟩ := by decide

example : parse_date "garbage".toList = none := by decide

example : parse_date " 2024-02-01 ".toList = some ⟨2024, 2, 1⟩ := by decide

/-- The `file=` separator used by the frame-source extraction. -/
def fileEqPat : Str := "file=".toList

/-- Suffix after the last occurrence of `file=` (`none` when it does not
occur): helper scanning for the latest start index. -/
def afterFileEqAux : Str → Option Str
  | [] => none
  | c :: rest =>
    match afterFileEqAux rest with
    | some t => some t
    | none =>
      if fileEqPat.isPrefixOf (c :: rest) then some ((c :: rest).drop 5)
      else none

/-- Python's `src.split('file=')[-1]`: the suffix after the last occurrence
of the separator, or the whole string when it does not occur (`file=` cannot
overlap itself, so left-to-right non-overlapping splitting ends after the
last occurrence). -/
def afterFileEq (s : Str) : Str :=
  match afterFileEqAux s with
  | some t => t
  | none => s

example : afterFileEq "viewer?file=/sebi_data/x.pdf".toList
    = "/sebi_data/x.pdf".toList := by decide

example : afterFileEq "a?file=b?file=c".toList = "c".toList := by decide

example : afterFileEq "viewer?file=".toList = [] := by decide

example : afterFileEq "nothing".toList = "nothing".toList := by decide

/-- The relevant content of a fetched intermediate page, as the HTML and
regex collaborators expose it to `extract_pdf_from_iframe`: the `src`
attribute of the first `iframe` element (when one with a `src` exists), the
`href` values of all anchors carrying one (in document order;
`find_all('a', href=re.compile(...))` filters these by suffix), and the
matches of the attachment-store pattern
`(?:sebi_data/attachdocs/|/sebi_data/attachdocs/)[^"']+\.pdf` in the raw
page text, in order. -/
structure IframePage where
  iframeSrc : Option Str
  anchorHrefs : List Str
  textMatches : List Str

/-- The in-page `.pdf`-anchor lookup: first anchor whose href ends in
`.pdf`, normalised. -/
def anchorsResolve (pg : IframePage) : Option Str :=
  match pg.anchorHrefs.filter (fun h => ".pdf".toList.isSuffixOf h) with
  | h :: _ => fix_pdf_url h
  | [] => none

/-- The raw-text pattern lookup: first attachment-store match, normalised. -/
def textResolve (pg : IframePage) : Option Str :=
  match pg.textMatches with
  | m :: _ => fix_pdf_url m
  | [] => none

/-- The code path after the iframe checks: anchors first, then the raw-text
pattern, then `None`. -/
def linksFallback (pg : IframePage) : Option Str :=
  match pg.anchorHrefs.filter (fun h => ".pdf".toList.isSuffixOf h) with
  | h :: _ => fix_pdf_url h
  | [] => textResolve pg

/-- Model of `SEBIScraper.extract_pdf_from_iframe`: `none` when the page
fetch raises (outer `except`); otherwise the iframe `src` is consulted
first — a `src` containing `file=` returns the normalised value after the
separator unconditionally, a `src` ending in `.pdf` is normalised and
returned — and only then the anchor and raw-text fallbacks run. -/
def extract_pdf_from_iframe (fetched : Option IframePage) : Option Str :=
  match fetched with
  | none => none
  | some pg =>
    match pg.iframeSrc with
    | some src =>
      if strContains src fileEqPat then fix_pdf_url (afterFileEq src)
      else if ".pdf".toList.isSuffixOf src then fix_pdf_url src
      else linksFallback pg
    | none => linksFallback pg

/-- First-success choice on optional results. -/
def orOpt (a b : Option Str) : Option Str :=
  match a with
  | some x => some x
  | none => b

/-- Follows the specification's wording of LinkResolver's ordered method
chain (spec section 4.3): method (a) embedded-frame source (value after
`file=` when present, else the source itself when it ends in `.pdf`),
method (b) first `.pdf` anchor, method (c) first attachment-store text
match; each candidate normalised, first successful method wins, `none` only
when all three methods fail. -/
def specResolveChain (pg : IframePage) : Option Str :=
  let mA :=
    match pg.iframeSrc with
    | some src =>
      if strContains src fileEqPat then fix_pdf_url (afterFileEq src)
      else if ".pdf".toList.isSuffixOf src then fix_pdf_url src
      else none
    | none => none
  orOpt (orOpt mA (anchorsResolve pg)) (textResolve pg)

/-- A fetched page on which the claimed method order fails: the frame
source carries an empty `file=` value, yet a `.pdf` anchor is present. -/
def iframeTrapPage : IframePage :=
  { iframeSrc := some "viewer?file=".toList,
    anchorHrefs := ["/sebi_data/attachdocs/x.pdf".toList],
    textMatches := [] }

/-- Split a string at every occurrence of a separator character (the
single-character case of `str.split(sep)`). -/
def splitChar (sep : Char) : Str → List Str
  | [] => [[]]
  | c :: rest =>
    match splitChar sep rest with
    | [] => [[]]
    | h :: t => if c == sep then [] :: h :: t else (c :: h) :: t

/-- `str.split('=', 1)` when a separator is present: the part before the
first `=` and everything after it; `none` when there is no `=`. -/
def splitEqOnce : Str → Option (Str × Str)
  | [] => none
  | c :: rest =>
    if c == '=' then some ([], rest)
    else
      match splitEqOnce rest with
      | some (a, b) => some (c :: a, b)
      | none => none

/-- Model of `urllib.parse.parse_qsl(qs)` with default settings and the
identity codec: split on `&`, skip fragments without `=` (this includes
empty fragments), and skip fragments whose value is empty
(`keep_blank_values=False`). -/
def parse_qsl (qs : Str) : List (Str × Str) :=
  (splitChar '&' qs).filterMap fun nv =>
    match splitEqOnce nv with
    | none => none
    | some (name, value) =>
      if value.isEmpty then none else some (name, value)

/-- One step of `parse_qs`'s grouping into a dict of value lists: repeated
keys append to the existing entry, new keys go to the end
(insertion-ordered dict). -/
def addParam (acc : List (Str × List Str)) (p : Str × Str) :
    List (Str × List Str) :=
  if acc.any (fun q => q.1 == p.1) then
    acc.map (fun q => if q.1 == p.1 then (q.1, q.2 ++ [p.2]) else q)
  else acc ++ [(p.1, [p.2])]

/-- Model of `urllib.parse.parse_qs(qs)`: grouped parsed pairs. -/
def parse_qs (qs : Str) : List (Str × List Str) :=
  (parse_qsl qs).foldl addParam []

/-- `dict.update` on the parameter dictionary (whose keys are unique):
replace the value of an existing key in place, append a missing key at the
end. -/
def setParam : List (Str × List Str) → Str → List Str →
    List (Str × List Str)
  | [], k, v => [(k, v)]
  | p :: t, k, v => if p.1 == k then (k, v) :: t else p :: setParam t k v

/-- Decimal digit character. -/
def digitChar (d : Nat) : Char := Char.ofNat ('0'.toNat + d)

/-- Digit accumulation for `natToStr`, with enough fuel to finish. -/
def natToStrGo : Nat → Nat → Str → Str
  | _, 0, acc => acc
  | 0, _ + 1, acc => acc
  | n + 1, fuel + 1, acc =>
    natToStrGo ((n + 1) / 10) fuel (digitChar ((n + 1) % 10) :: acc)

/-- Python's `str(n)` on a natural number. -/
def natToStr (n : Nat) : Str :=
  if n == 0 then ['0'] else natToStrGo n (n + 1) []

example : natToStr 0 = ['0'] := by decide

example : natToStr 20 = ['2', '0'] := by decide

example : natToStr 1234 = ['1', '2', '3', '4'] := by decide

/-- The parameter dictionary after `construct_paginated_url` merges in
`start = (page-1)*items_per_page`, `length = items_per_page` and
`bm = normal` (the dict-literal iteration order of the update). -/
def paginationParams (query : Str) (page items_per_page : Nat) :
    List (Str × List Str) :=
  setParam (setParam (setParam (parse_qs query)
    "start".toList [natToStr ((page - 1) * items_per_page)])
    "length".toList [natToStr items_per_page])
    "bm".toList ["normal".toList]

/-- Model of `urllib.parse.urlencode(params, doseq=True)` with the identity
codec. -/
def urlencodeDoseq (ps : List (Str × List Str)) : Str :=
  List.intercalate ['&'] (ps.flatMap fun p => p.2.map (fun v => p.1 ++ '=' :: v))

/-- The components `urlparse` splits a base listing URL into. -/
structure UrlParts where
  scheme : Str
  netloc : Str
  path : Str
  query : Str

/-- Model of `SEBIScraper.construct_paginated_url`: re-assemble scheme,
netloc and path with the re-encoded, updated query. -/
def construct_paginated_url (u : UrlParts) (page : Nat)
    (items_per_page : Nat) : Str :=
  u.scheme ++ "://".toList ++ u.netloc ++ u.path ++ '?'
    :: urlencodeDoseq (paginationParams u.query page items_per_page)

/-- Lookup of a key's value list in a parameter dictionary. -/
def getParam (ps : List (Str × List Str)) (k : Str) : Option (List Str) :=
  (ps.find? (fun p => p.1 == k)).map (fun p => p.2)

example : parse_qs "a=1&a=2&b=3".toList
    = [("a".toList, ["1".toList, "2".toList]), ("b".toList, ["3".toList])] := by decide

example : parse_qs "foo=&a=1".toList = [("a".toList, ["1".toList])] := by decide

/-- A `<tr>` of the listing table as the row loop sees it: its `<td>` count,
the trimmed texts of cells 0 and 1, and the `href` of the first anchor of
cell 1 (when an anchor with an `href` exists). -/
structure Row where
  numCols : Nat
  issueDate : Str
  pdfName : Str
  href : Option Str

/-- A fetched listing page, as the HTML collaborator exposes it: the rows of
the table with id `sample_1` (`none` when that table is absent, header
included), and the page count `get_total_pages` computes from the same soup
(entry-count regex, pagination-link fallback, default 1). -/
structure ListingPage where
  trs : Option (List Row)
  totalPagesInfo : Nat

/-- A manifest row `[folder, pdf_name, issue_date, pdf_url]`. -/
structure Entry where
  folder : Str
  name : Str
  date : Str
  url : Str
deriving DecidableEq

/-- Scrape-level side effects: one listing fetch (identified by the page
number its URL encodes) and one sleep. -/
inductive SEv
  | fetchPage (page : Nat)
  | sleepS (n : Nat)
deriving DecidableEq

/-- The body of `for row in rows` in `scrape_folder_page`: skip rows with
fewer than two cells, apply the date filter, resolve `.html` links through
the iframe extraction (given here as the `resolve` collaborator, a truthy
non-empty result being required) and take `.pdf` links directly; an accepted
URL not in the seen set is added to it, written to the manifest and
collected. -/
def processRow (cutoff : Option PDate) (resolve : Str → Option Str)
    (folderName : Str) (st : List Str × List Entry) (row : Row) :
    List Str × List Entry :=
  if row.numCols ≤ 1 then st
  else if is_after_cutoff cutoff row.issueDate = false then st
  else
    match row.href with
    | none => st
    | some href =>
      let original_url := urljoinParts "https".toList sebiHost [] href
      if ".html".toList.isSuffixOf original_url then
        match resolve original_url with
        | some pdf_url =>
          if pdf_url.isEmpty then st
          else if pdf_url ∈ st.1 then st
          else (pdf_url :: st.1,
            st.2 ++ [⟨folderName, row.pdfName, row.issueDate, pdf_url⟩])
        | none => st
      else if ".pdf".toList.isSuffixOf original_url then
        if original_url ∈ st.1 then st
        else (original_url :: st.1,
          st.2 ++ [⟨folderName, row.pdfName, row.issueDate, original_url⟩])
      else st

/-- State of the `while page <= total_pages` loop: current page, index of
the next listing fetch, the shared seen set, the collected entries (also the
manifest rows written so far) and the recorded events. -/
structure ScrapeState where
  page : Nat
  fetchIdx : Nat
  seen : List Str
  entries : List Entry
  events : List SEv
deriving DecidableEq

/-- Outcome of one loop iteration: continue looping or leave the loop. -/
inductive StepOut
  | next (s : ScrapeState)
  | finished (s : ScrapeState)
deriving DecidableEq

/-- One iteration of the pagination loop: exit when the page number passes
the total; on a `RequestException` log, sleep 5s and `continue` (the page
number is not advanced); on a response, leave the loop when the listing
table is absent or has no data rows, otherwise process the rows, advance
the page and sleep 2s. -/
def scrapeStep (net : Nat → Option ListingPage) (cutoff : Option PDate)
    (resolve : Str → Option Str) (folderName : Str) (totalPages : Nat)
    (s : ScrapeState) : StepOut :=
  if s.page > totalPages then .finished s
  else
    match net s.fetchIdx with
    | none =>
      .next { s with
              fetchIdx := s.fetchIdx + 1
              events := s.events ++ [.fetchPage s.page, .sleepS 5] }
    | some pg =>
      match pg.trs with
      | none =>
        .finished { s with
                    fetchIdx := s.fetchIdx + 1
                    events := s.events ++ [.fetchPage s.page] }
      | some trs =>
        let rows := trs.drop 1
        if rows.isEmpty then
          .finished { s with
                      fetchIdx := s.fetchIdx + 1
                      events := s.events ++ [.fetchPage s.page] }
        else
          let st := rows.foldl (processRow cutoff resolve folderName)
            (s.seen, s.entries)
          .next { page := s.page + 1
                  fetchIdx := s.fetchIdx + 1
                  seen := st.1
                  entries := st.2
                  events := s.events ++ [.fetchPage s.page, .sleepS 2] }

/-- The pagination loop, run with fuel: `none` means the fuel ran out while
the loop was still going (the code itself has no bound on iterations). -/
def scrapeLoop (net : Nat → Option ListingPage) (cutoff : Option PDate)
    (resolve : Str → Option Str) (folderName : Str) (totalPages : Nat) :
    Nat → ScrapeState → Option ScrapeState
  | 0, _ => none
  | fuel + 1, s =>
    match scrapeStep net cutoff resolve folderName totalPages s with
    | .finished s' => some s'
    | .next s' => scrapeLoop net cutoff resolve folderName totalPages fuel s'

/-- Model of `SEBIScraper.scrape_folder_page`: the initial fetch (whose
failure is caught by the outer handler, returning an empty entry list) sets
the page total, then the pagination loop runs from page 1.  The network
collaborator `net` gives the outcome of the i-th listing fetch of this
folder (`none` for a `RequestException`); `resolve` is the iframe
extraction on an intermediate page's URL. -/
def scrape_folder_page (net : Nat → Option ListingPage) (cutoff : Option PDate)
    (resolve : Str → Option Str) (folderName : Str) (seen : List Str)
    (fuel : Nat) : Option (List Entry × List Str × List SEv) :=
  match net 0 with
  | none => some ([], seen, [.fetchPage 1])
  | some pg0 =>
    (scrapeLoop net cutoff resolve folderName pg0.totalPagesInfo fuel
      ⟨1, 1, seen, [], [.fetchPage 1]⟩).map fun s => (s.entries, s.seen, s.events)

/-- One configured folder together with its network behaviour and its
iframe-resolution collaborator. -/
structure FolderTask where
  name : Str
  net : Nat → Option ListingPage
  resolve : Str → Option Str

/-- The download invocation `run` makes for an entry:
`download_pdf(pdf_link, folder, f"{pdf_name}_{issue_date}.pdf")`. -/
def downloadCallOf (e : Entry) : Str × Str × Str :=
  (e.url, e.folder, e.name ++ '_' :: e.date ++ ".pdf".toList)

/-- Model of `SEBIScraper.run`: one shared seen set across all folders; per
folder, scrape all pages, then queue one download per collected entry.
Returns the manifest rows (in write order), the final seen set and the
download calls; `none` when some folder's pagination loop exceeded the
fuel (i.e. was still looping). -/
def runModel (cutoff : Option PDate) :
    List FolderTask → List Str → Nat →
    Option (List Entry × List Str × List (Str × Str × Str))
  | [], seen, _ => some ([], seen, [])
  | f :: rest, seen, fuel =>
    match scrape_folder_page f.net cutoff f.resolve f.name seen fuel with
    | none => none
    | some (entries, seen', _) =>
      match runModel cutoff rest seen' fuel with
      | none => none
      | some (manifest, seenF, calls) =>
        some (entries ++ manifest, seenF, entries.map downloadCallOf ++ calls)

/-- How the seen set and the collected entries evolve: entries are only
appended, their URLs are fresh and pairwise distinct, and the seen set
grows by exactly those URLs (none is ever removed). -/
def SeenExtends (seen : List Str) (acc : List Entry)
    (seen' : List Str) (acc' : List Entry) : Prop :=
  ∃ new : List Entry, acc' = acc ++ new
    ∧ seen' = (new.map Entry.url).reverse ++ seen
    ∧ (∀ u ∈ new.map Entry.url, u ∉ seen)
    ∧ (new.map Entry.url).Nodup

/-- The state a loop iteration carries on, whichever way it exits. -/
def stepState : StepOut → ScrapeState
  | .next s => s
  | .finished s => s

/-- Header row of a listing table (dropped by `find_all('tr')[1:]`). -/
def hdrRow : Row := { numCols := 0, issueDate := [], pdfName := [], href := none }

/-- A data row linking directly to a PDF document. -/
def rowPdf : Row :=
  { numCols := 2, issueDate := "01-01-2024".toList, pdfName := "Doc".toList,
    href := some "/doc/x.pdf".toList }

/-- The absolute URL `rowPdf` resolves to. -/
def urlX : Str := "https://www.sebi.gov.in/doc/x.pdf".toList

/-- The manifest entry the Legal folder accepts for `rowPdf`. -/
def entryLegal : Entry :=
  ⟨"Legal".toList, "Doc".toList, "01-01-2024".toList, urlX⟩

/-- A one-page listing containing `rowPdf`. -/
def pageOne : ListingPage := { trs := some [hdrRow, rowPdf], totalPagesInfo := 1 }

/-- A network on which every listing fetch succeeds with `pageOne`. -/
def netOne : Nat → Option ListingPage := fun _ => some pageOne

/-- A resolver that never finds a document (no `.html` rows occur in these
scenarios). -/
def resolveNone : Str → Option Str := fun _ => none

/-- Two folders listing the same document. -/
def dupFolders : List FolderTask :=
  [⟨"Legal".toList, netOne, resolveNone⟩, ⟨"Rules".toList, netOne, resolveNone⟩]

/-- A listing page used only for the initial page-count fetch. -/
def pgStub : ListingPage := { trs := some [], totalPagesInfo := 1 }

/-- A network whose first listing fetch succeeds and whose every later
fetch raises a transport error. -/
def netBad : Nat → Option ListingPage :=
  fun i => if i == 0 then some pgStub else none

/-- The single folder driven over `netBad`. -/
def badFolders : List FolderTask := [⟨"Legal".toList, netBad, resolveNone⟩]

/-- The run never returns, whatever fuel the pagination loops are given. -/
def RunHangs (cutoff : Option PDate) (folders : List FolderTask) : Prop :=
  ∀ fuel, runModel cutoff folders [] fuel = none

/-- A network behaviour where the listing fetch of page 1 fails twice after
the initial fetch, then succeeds. -/
def netC2 : Nat → Option ListingPage
  | 0 => some pageOne
  | 3 => some pageOne
  | _ => none

/-- Fetch events of a given page recorded in a scrape trace. -/
def countFetchEv (p : Nat) : List SEv → Nat
  | [] => 0
  | .fetchPage q :: rest => (if q == p then 1 else 0) + countFetchEv p rest
  | _ :: rest => countFetchEv p rest

/-- A reference whose head is not a slash does not begin with `//`. -/
theorem dblslash_isPrefixOf_false (u : Str) (h : (u.headD ' ' == '/') = false) :
    "//".toList.isPrefixOf u = false := by
  cases u with
  | nil => rfl
  | cons c rest =>
    simp only [List.headD_cons, beq_eq_false_iff_ne, ne_eq] at h
    simp [List.isPrefixOf, Ne.symm h]

/-- The attachment-store base path already ends in a slash, so path merging
leaves it unchanged. -/
theorem pathDir_attachPath : pathDir attachPath = attachPath := by decide

/-- C9: a URL that is already absolute (it starts with `http`) and ends in
`.pdf` is returned unchanged by the URL-fixing normaliser; a path beginning
with the attachment-store root path (with or without leading slash) is
joined against the site root; any other non-empty scheme-less path is joined
against the configured attachment-store base URL (root-relative paths
replace the base's path, other paths are appended to the store directory). -/
theorem C9_fix_pdf_url :
    (∀ u : Str, "http".toList.isPrefixOf u = true →
      ".pdf".toList.isSuffixOf u = true → fix_pdf_url u = some u)
  ∧ (∀ u : Str, "/sebi_data/attachdocs".toList.isPrefixOf u = true →
      fix_pdf_url u = some (siteRoot ++ u))
  ∧ (∀ u : Str, "sebi_data/attachdocs".toList.isPrefixOf u = true →
      fix_pdf_url u = some (siteRoot ++ '/' :: u))
  ∧ (∀ u : Str, u.isEmpty = false → "http".toList.isPrefixOf u = false →
      "/sebi_data/attachdocs".toList.isPrefixOf u = false →
      "sebi_data/attachdocs".toList.isPrefixOf u = false →
      hasScheme u = false → (u.headD ' ' == '/') = true →
      "//".toList.isPrefixOf u = false →
      fix_pdf_url u = some (siteRoot ++ u))
  ∧ (∀ u : Str, u.isEmpty = false → "http".toList.isPrefixOf u = false →
      "/sebi_data/attachdocs".toList.isPrefixOf u = false →
      "sebi_data/attachdocs".toList.isPrefixOf u = false →
      hasScheme u = false → (u.headD ' ' == '/') = false →
      fix_pdf_url u = some (attachdocsBase ++ u)) := by
  refine ⟨?_, ?_, ?_, ?_, ?_⟩
  · intro u h1 _h2
    obtain ⟨t, rfl⟩ := List.isPrefixOf_iff_prefix.mp h1
    simp [fix_pdf_url]
  · intro u h
    obtain ⟨t, rfl⟩ := List.isPrefixOf_iff_prefix.mp h
    simp [fix_pdf_url, urljoinParts, hasScheme, List.isPrefixOf, siteRoot, sebiHost]
  · intro u h
    obtain ⟨t, rfl⟩ := List.isPrefixOf_iff_prefix.mp h
    simp [fix_pdf_url, urljoinParts, hasScheme, List.isPrefixOf, siteRoot, sebiHost]
  · intro u h0 h1 h2 h3 h4 h5 h6
    simp only [fix_pdf_url, urljoinParts, h0, h1, h2, h3, h4, h5, h6,
      Bool.false_eq_true, if_false, if_true, Option.some.injEq]
    simp [siteRoot, sebiHost]
  · intro u h0 h1 h2 h3 h4 h5
    simp only [fix_pdf_url, urljoinParts, h0, h1, h2, h3, h4, h5,
      dblslash_isPrefixOf_false u h5, Bool.false_eq_true, if_false,
      Option.some.injEq, pathDir_attachPath]
    simp [attachdocsBase, attachPath, sebiHost]

/-- Concrete instances of each case of `C9_fix_pdf_url`. -/
theorem C9_fix_pdf_url_witness :
    fix_pdf_url "https://www.sebi.gov.in/x/a.pdf".toList
      = some "https://www.sebi.gov.in/x/a.pdf".toList
  ∧ fix_pdf_url "/sebi_data/attachdocs/a.pdf".toList
      = some (siteRoot ++ "/sebi_data/attachdocs/a.pdf".toList)
  ∧ fix_pdf_url "sebi_data/attachdocs/a.pdf".toList
      = some (siteRoot ++ '/' :: "sebi_data/attachdocs/a.pdf".toList)
  ∧ fix_pdf_url "/other/a.pdf".toList = some (siteRoot ++ "/other/a.pdf".toList)
  ∧ fix_pdf_url "foo/a.pdf".toList = some (attachdocsBase ++ "foo/a.pdf".toList) :=
  ⟨C9_fix_pdf_url.1 _ (by decide) (by decide),
   C9_fix_pdf_url.2.1 _ (by decide),
   C9_fix_pdf_url.2.2.1 _ (by decide),
   C9_fix_pdf_url.2.2.2.1 _ (by decide) (by decide) (by decide) (by decide)
     (by decide) (by decide) (by decide),
   C9_fix_pdf_url.2.2.2.2 _ (by decide) (by decide) (by decide) (by decide)
     (by decide) (by decide)⟩

/-- The retry loop performs at most as many fetches as it has remaining
iterations. -/
theorem countFetch_downloadAttempts (net : Nat → FetchRes) (u fp mp now : Str) :
    ∀ fuel attempt, countFetch (downloadAttempts net u fp mp now attempt fuel).2 ≤ fuel := by
  intro fuel
  induction fuel with
  | zero => intro attempt; simp [downloadAttempts, countFetch]
  | succ n ih =>
    intro attempt
    simp only [downloadAttempts]
    cases hnet : net attempt with
    | resp ct body =>
      dsimp only
      split <;> simp [countFetch]
    | exn =>
      dsimp only
      split
      · simp [countFetch]
      · have := ih (attempt + 1)
        simp only [countFetch]
        omega

/-- Every file write of the retry loop targets the file path or its
metadata sidecar. -/
theorem writes_downloadAttempts (net : Nat → FetchRes) (u fp mp now : Str) :
    ∀ fuel attempt p d,
      DEv.writeEv p d ∈ (downloadAttempts net u fp mp now attempt fuel).2 →
      p = fp ∨ p = mp := by
  intro fuel
  induction fuel with
  | zero => intro attempt p d h; simp [downloadAttempts] at h
  | succ n ih =>
    intro attempt p d h
    simp only [downloadAttempts] at h
    split at h
    · split at h
      · simp at h
        rcases h with ⟨h, _⟩ | ⟨h, _⟩
        · exact Or.inl h
        · exact Or.inr h
      · simp at h
    · split at h
      · simp at h
      · simp at h
        exact ih (attempt + 1) p d h

/-- C7: when the sanitised target file path already exists, `download_pdf`
returns success immediately; its only side effect is the idempotent folder
creation — no network fetch and no file write occur, so the existing file
and its metadata sidecar stay untouched. -/
theorem C7_existing_file_skip (fs : Str → Bool) (net : Nat → FetchRes)
    (now pdf_url folder_name file_name : Str)
    (h : fs (filePathOf folder_name (sanitize file_name)) = true) :
    download_pdf fs net now pdf_url folder_name file_name
      = (true, [DEv.mkdirEv (folderPathOf folder_name)])
  ∧ (∀ v, DEv.fetchEv v ∉ (download_pdf fs net now pdf_url folder_name file_name).2)
  ∧ (∀ p d, DEv.writeEv p d ∉ (download_pdf fs net now pdf_url folder_name file_name).2) := by
  have he : download_pdf fs net now pdf_url folder_name file_name
      = (true, [DEv.mkdirEv (folderPathOf folder_name)]) := by
    simp [download_pdf, h]
  refine ⟨he, ?_, ?_⟩
  · intro v
    simp [he]
  · intro p d
    simp [he]

/-- Concrete instance of `C7_existing_file_skip` on a file system where the
target exists. -/
theorem C7_existing_file_skip_witness :
    download_pdf (fun _ => true) (fun _ => FetchRes.exn) []
        "https://x/a.pdf".toList "Legal".toList "a.pdf".toList
      = (true, [DEv.mkdirEv (folderPathOf "Legal".toList)]) :=
  (C7_existing_file_skip (fun _ => true) (fun _ => FetchRes.exn) []
    "https://x/a.pdf".toList "Legal".toList "a.pdf".toList rfl).1

/-- C8: a download whose target does not exist and whose URL normalises
successfully performs at most 3 fetch attempts; two transport failures
followed by a PDF response make the call succeed after backoff sleeps of
exactly 1s and 2s, writing the file and its sidecar; three transport
failures exhaust the retries with the same two backoff sleeps and yield a
failure result (a returned `False`, which the caller ignores, not an
exception). -/
theorem C8_download_retry_backoff :
    (∀ (fs : Str → Bool) (net : Nat → FetchRes) (now pdf_url folder_name file_name : Str),
      countFetch (download_pdf fs net now pdf_url folder_name file_name).2 ≤ 3)
  ∧ (∀ (fs : Str → Bool) (net : Nat → FetchRes) (now pdf_url folder_name file_name u ct body : Str),
      fs (filePathOf folder_name (sanitize file_name)) = false →
      fix_pdf_url pdf_url = some u →
      net 0 = FetchRes.exn → net 1 = FetchRes.exn → net 2 = FetchRes.resp ct body →
      (strContains (lowerStr ct) "application/pdf".toList
        || ".pdf".toList.isSuffixOf u) = true →
      download_pdf fs net now pdf_url folder_name file_name
        = (true, [DEv.mkdirEv (folderPathOf folder_name),
            DEv.fetchEv u, DEv.sleepEv 1, DEv.fetchEv u, DEv.sleepEv 2, DEv.fetchEv u,
            DEv.writeEv (filePathOf folder_name (sanitize file_name)) body,
            DEv.writeEv (filePathOf folder_name (sanitize file_name) ++ ".meta".toList)
              (metaText now u)]))
  ∧ (∀ (fs : Str → Bool) (net : Nat → FetchRes) (now pdf_url folder_name file_name u : Str),
      fs (filePathOf folder_name (sanitize file_name)) = false →
      fix_pdf_url pdf_url = some u →
      net 0 = FetchRes.exn → net 1 = FetchRes.exn → net 2 = FetchRes.exn →
      download_pdf fs net now pdf_url folder_name file_name
        = (false, [DEv.mkdirEv (folderPathOf folder_name),
            DEv.fetchEv u, DEv.sleepEv 1, DEv.fetchEv u, DEv.sleepEv 2, DEv.fetchEv u])) := by
  refine ⟨?_, ?_, ?_⟩
  · intro fs net now pdf_url folder_name file_name
    simp only [download_pdf]
    split
    · simp [countFetch]
    · split
      · simp [countFetch]
      · rename_i u heq
        have := countFetch_downloadAttempts net u
          (filePathOf folder_name (sanitize file_name))
          (filePathOf folder_name (sanitize file_name) ++ ".meta".toList)
          now maxRetries 0
        simp only [countFetch, maxRetries] at this ⊢
        omega
  · intro fs net now pdf_url folder_name file_name u ct body h0 h1 h2 h3 h4 h5
    simp only [Bool.or_eq_true] at h5
    rcases h5 with h5 | h5 <;> simp at h5 <;>
      simp [download_pdf, downloadAttempts, h0, h1, h2, h3, h4, h5, maxRetries]
  · intro fs net now pdf_url folder_name file_name u h0 h1 h2 h3 h4
    simp [download_pdf, downloadAttempts, h0, h1, h2, h3, h4, maxRetries]

/-- Concrete instance of the fail-twice-then-succeed scenario of
`C8_download_retry_backoff`. -/
theorem C8_download_retry_backoff_witness :
    download_pdf (fun _ => false)
        (fun i => if i == 2 then FetchRes.resp "application/pdf".toList "BODY".toList
                  else FetchRes.exn)
        "T".toList "https://x/a.pdf".toList "Legal".toList "a.pdf".toList
      = (true, [DEv.mkdirEv (folderPathOf "Legal".toList),
          DEv.fetchEv "https://x/a.pdf".toList, DEv.sleepEv 1,
          DEv.fetchEv "https://x/a.pdf".toList, DEv.sleepEv 2,
          DEv.fetchEv "https://x/a.pdf".toList,
          DEv.writeEv (filePathOf "Legal".toList (sanitize "a.pdf".toList)) "BODY".toList,
          DEv.writeEv (filePathOf "Legal".toList (sanitize "a.pdf".toList) ++ ".meta".toList)
            (metaText "T".toList "https://x/a.pdf".toList)]) :=
  C8_download_retry_backoff.2.1 (fun _ => false)
    (fun i => if i == 2 then FetchRes.resp "application/pdf".toList "BODY".toList
              else FetchRes.exn)
    "T".toList "https://x/a.pdf".toList "Legal".toList "a.pdf".toList
    "https://x/a.pdf".toList "application/pdf".toList "BODY".toList
    rfl (by decide) rfl rfl rfl (by decide)

/-- C10: sanitisation strips every path-separator character, and every file
write performed by `download_pdf` targets the sanitised name or its `.meta`
sidecar directly inside `downloaded_data/<folder_name>/`. -/
theorem C10_sanitize_no_separators :
    (∀ s : Str, '/' ∉ sanitize s ∧ '\\' ∉ sanitize s)
  ∧ (∀ (fs : Str → Bool) (net : Nat → FetchRes)
        (now pdf_url folder_name file_name p d : Str),
      DEv.writeEv p d ∈ (download_pdf fs net now pdf_url folder_name file_name).2 →
      p = filePathOf folder_name (sanitize file_name)
      ∨ p = filePathOf folder_name (sanitize file_name) ++ ".meta".toList) := by
  constructor
  · intro s
    constructor <;> intro hmem <;>
      exact absurd (List.mem_filter.mp hmem).2 (by decide)
  · intro fs net now pdf_url folder_name file_name p d h
    simp only [download_pdf] at h
    split at h
    · simp at h
    · split at h
      · simp at h
      · simp only [List.mem_cons] at h
        rcases h with h | h
        · cases h
        · exact writes_downloadAttempts net _ _ _ now maxRetries 0 p d h

/-- Concrete instances of `C10_sanitize_no_separators`: a traversal-laden
file name loses all separators, and a concrete write lands on the sanitised
path. -/
theorem C10_sanitize_no_separators_witness :
    ('/' ∉ sanitize "../../etc/passwd".toList ∧ '\\' ∉ sanitize "..\\..\\x".toList)
  ∧ (filePathOf "Legal".toList (sanitize "a.pdf".toList)
        = filePathOf "Legal".toList (sanitize "a.pdf".toList)
      ∨ filePathOf "Legal".toList (sanitize "a.pdf".toList)
        = filePathOf "Legal".toList (sanitize "a.pdf".toList) ++ ".meta".toList) :=
  ⟨⟨(C10_sanitize_no_separators.1 "../../etc/passwd".toList).1,
    (C10_sanitize_no_separators.1 "..\\..\\x".toList).2⟩,
   C10_sanitize_no_separators.2 (fun _ => false)
     (fun _ => FetchRes.resp "application/pdf".toList "B".toList)
     "T".toList "https://x/a.pdf".toList "Legal".toList "a.pdf".toList
     (filePathOf "Legal".toList (sanitize "a.pdf".toList)) "B".toList (by decide)⟩

/-- C6: with no cutoff configured the date filter always admits; with a
cutoff, an unparseable date string is admitted (fail-open) and a parseable
one is admitted exactly when the parsed instant is at or after the cutoff. -/
theorem C6_is_after_cutoff :
    (∀ s : Str, is_after_cutoff none s = true)
  ∧ (∀ (s : Str) (c : PDate), parse_date s = none →
      is_after_cutoff (some c) s = true)
  ∧ (∀ (s : Str) (c d : PDate), parse_date s = some d →
      (is_after_cutoff (some c) s = true ↔ dateLe c d = true)) := by
  refine ⟨fun s => rfl, ?_, ?_⟩
  · intro s c h
    simp [is_after_cutoff, h]
  · intro s c d h
    simp [is_after_cutoff, h]

/-- Concrete instances of `C6_is_after_cutoff`: an unparseable string passes
the filter, and a parseable one is compared with the cutoff. -/
theorem C6_is_after_cutoff_witness :
    is_after_cutoff (some ⟨2023, 1, 1⟩) "not a date".toList = true
  ∧ (is_after_cutoff (some ⟨2023, 1, 1⟩) "01-02-2024".toList = true ↔
      dateLe ⟨2023, 1, 1⟩ ⟨2024, 2, 1⟩ = true) :=
  ⟨C6_is_after_cutoff.2.1 "not a date".toList ⟨2023, 1, 1⟩ (by decide),
   C6_is_after_cutoff.2.2 "01-02-2024".toList ⟨2023, 1, 1⟩ ⟨2024, 2, 1⟩ (by decide)⟩

/-- URL fixing only fails on the empty string. -/
theorem fix_pdf_url_isSome (u : Str) (h : u ≠ []) : ∃ v, fix_pdf_url u = some v := by
  have he : u.isEmpty = false := by
    cases u with
    | nil => exact absurd rfl h
    | cons c rest => rfl
  rw [fix_pdf_url, he]
  simp only [Bool.false_eq_true, if_false]
  split_ifs <;> exact ⟨_, rfl⟩

/-- A string ending in `.pdf` is nonempty. -/
theorem ne_nil_of_pdf_suffix (u : Str) (h : ".pdf".toList.isSuffixOf u = true) :
    u ≠ [] := by
  intro hnil
  subst hnil
  simp [List.isSuffixOf] at h

/-- The anchor/raw-text fallback is the first-success chain of its two
methods. -/
theorem linksFallback_eq (pg : IframePage) :
    linksFallback pg = orOpt (anchorsResolve pg) (textResolve pg) := by
  rw [linksFallback, anchorsResolve]
  cases hf : pg.anchorHrefs.filter (fun h => ".pdf".toList.isSuffixOf h) with
  | nil => rfl
  | cons h t =>
    have hmem : h ∈ pg.anchorHrefs.filter (fun h => ".pdf".toList.isSuffixOf h) := by
      rw [hf]; exact List.mem_cons_self h t
    have hpdf : ".pdf".toList.isSuffixOf h = true := (List.mem_filter.mp hmem).2
    obtain ⟨v, hv⟩ := fix_pdf_url_isSome h (ne_nil_of_pdf_suffix h hpdf)
    simp [hv, orOpt]

/-- C3 counterexample: on `iframeTrapPage` the extraction returns `none`
although method (b) — the in-page anchor — succeeds, so the first
successful method does not determine the result and `none` is returned
while not all three methods failed. -/
theorem C3_method_order_cex :
    extract_pdf_from_iframe (some iframeTrapPage) = none
  ∧ specResolveChain iframeTrapPage
      = some "https://www.sebi.gov.in/sebi_data/attachdocs/x.pdf".toList
  ∧ anchorsResolve iframeTrapPage
      = some "https://www.sebi.gov.in/sebi_data/attachdocs/x.pdf".toList := by
  refine ⟨by decide, by decide, by decide⟩

/-- C3 (amended): a failed page fetch resolves to `none`; when the frame
source contains `file=`, the normalised value after the separator is the
result unconditionally — even when that value is empty and normalisation
fails, methods (b) and (c) are not tried; in every other case the
extraction agrees with the specification's first-success chain of the three
methods, returning `none` only when all of them fail. -/
theorem C3_resolution_methods :
    extract_pdf_from_iframe none = none
  ∧ (∀ (pg : IframePage) (src : Str), pg.iframeSrc = some src →
      strContains src fileEqPat = true →
      extract_pdf_from_iframe (some pg) = fix_pdf_url (afterFileEq src))
  ∧ (∀ pg : IframePage,
      (∀ src : Str, pg.iframeSrc = some src → strContains src fileEqPat = false) →
      extract_pdf_from_iframe (some pg) = specResolveChain pg) := by
  refine ⟨rfl, ?_, ?_⟩
  · intro pg src hsrc hfe
    simp [extract_pdf_from_iframe, hsrc, hfe]
  · intro pg hfe
    cases hsrc : pg.iframeSrc with
    | none =>
      simp only [extract_pdf_from_iframe, specResolveChain, hsrc, linksFallback_eq, orOpt]
    | some src =>
      have hfe' := hfe src hsrc
      cases hsfx : ".pdf".toList.isSuffixOf src with
      | true =>
        obtain ⟨v, hv⟩ := fix_pdf_url_isSome src (ne_nil_of_pdf_suffix src hsfx)
        simp at hsfx
        simp [extract_pdf_from_iframe, specResolveChain, hsrc, hfe', hsfx, hv, orOpt]
      | false =>
        simp at hsfx
        simp [extract_pdf_from_iframe, specResolveChain, hsrc, hfe', hsfx,
          linksFallback_eq, orOpt]

/-- Concrete instances of `C3_resolution_methods`: the empty-`file=` page
resolves through the frame branch alone, and a `file=`-free page agrees
with the three-method chain. -/
theorem C3_resolution_methods_witness :
    extract_pdf_from_iframe (some iframeTrapPage)
      = fix_pdf_url (afterFileEq "viewer?file=".toList)
  ∧ extract_pdf_from_iframe
        (some { iframeSrc := some "doc.pdf".toList, anchorHrefs := [],
                textMatches := [] })
      = specResolveChain
          { iframeSrc := some "doc.pdf".toList, anchorHrefs := [],
            textMatches := [] } :=
  ⟨C3_resolution_methods.2.1 iframeTrapPage "viewer?file=".toList rfl (by decide),
   C3_resolution_methods.2.2 _ (by intro src h; cases h; decide)⟩

/-- Updating a key makes its value the one stored under that key. -/
theorem getParam_setParam_self (ps : List (Str × List Str))
    (k : Str) (v : List Str) : getParam (setParam ps k v) k = some v := by
  induction ps with
  | nil => simp [setParam, getParam]
  | cons p t ih =>
    by_cases h : (p.1 == k) = true
    · simp [setParam, getParam, h]
    · simp only [Bool.not_eq_true] at h
      simp [setParam, getParam, h] at ih ⊢
      exact ih

/-- Updating a key leaves every other key's value unchanged. -/
theorem getParam_setParam_other (ps : List (Str × List Str))
    (k k' : Str) (v : List Str) (hk : k' ≠ k) :
    getParam (setParam ps k v) k' = getParam ps k' := by
  have hbeq : (k == k') = false := by
    simp [hk.symm]
  induction ps with
  | nil => simp [setParam, getParam, hbeq]
  | cons p t ih =>
    by_cases h : (p.1 == k) = true
    · have hp : p.1 = k := by simpa using h
      simp [setParam, getParam, h, hp, hbeq]
    · simp only [Bool.not_eq_true] at h
      by_cases h' : (p.1 == k') = true
      · simp [setParam, getParam, h, h']
      · simp only [Bool.not_eq_true] at h'
        simp [setParam, getParam, h, h'] at ih ⊢
        exact ih

/-- C5 (amended): the constructed query's parameter dictionary carries
exactly `start = (page-1)*items_per_page`, `length = items_per_page` and
`bm = normal`, overwriting same-named parameters of the base URL, and every
other parameter the query parser retains — every one with a non-empty
value — is preserved unchanged; parameters with blank values (and bare
keys without `=`) are dropped by the parsing step and are not preserved. -/
theorem C5_paginated_params (q : Str) (page n : Nat) (_hp : 1 ≤ page) :
    getParam (paginationParams q page n) "start".toList
      = some [natToStr ((page - 1) * n)]
  ∧ getParam (paginationParams q page n) "length".toList = some [natToStr n]
  ∧ getParam (paginationParams q page n) "bm".toList = some ["normal".toList]
  ∧ ∀ k : Str, k ≠ "start".toList → k ≠ "length".toList → k ≠ "bm".toList →
      getParam (paginationParams q page n) k = getParam (parse_qs q) k := by
  refine ⟨?_, ?_, ?_, ?_⟩
  · rw [paginationParams,
      getParam_setParam_other _ _ _ _ (by decide),
      getParam_setParam_other _ _ _ _ (by decide),
      getParam_setParam_self]
  · rw [paginationParams,
      getParam_setParam_other _ _ _ _ (by decide),
      getParam_setParam_self]
  · rw [paginationParams, getParam_setParam_self]
  · intro k h1 h2 h3
    rw [paginationParams,
      getParam_setParam_other _ _ _ _ h3,
      getParam_setParam_other _ _ _ _ h2,
      getParam_setParam_other _ _ _ _ h1]

/-- Concrete instance of `C5_paginated_params` on a base query that already
carries `start` and an unrelated parameter. -/
theorem C5_paginated_params_witness :
    getParam (paginationParams "a=1&start=999".toList 3 10) "start".toList
      = some ["20".toList]
  ∧ getParam (paginationParams "a=1&start=999".toList 3 10) "length".toList
      = some ["10".toList]
  ∧ getParam (paginationParams "a=1&start=999".toList 3 10) "bm".toList
      = some ["normal".toList]
  ∧ getParam (paginationParams "a=1&start=999".toList 3 10) "a".toList
      = getParam (parse_qs "a=1&start=999".toList) "a".toList :=
  ⟨by
    have := (C5_paginated_params "a=1&start=999".toList 3 10 (by decide)).1
    simpa using this,
   (C5_paginated_params "a=1&start=999".toList 3 10 (by decide)).2.1,
   (C5_paginated_params "a=1&start=999".toList 3 10 (by decide)).2.2.1,
   (C5_paginated_params "a=1&start=999".toList 3 10 (by decide)).2.2.2 "a".toList
     (by decide) (by decide) (by decide)⟩

/-- C5 counterexample: the base query `foo=&a=1` carries the blank-valued
parameter `foo`, but the constructed URL drops it entirely — the original
parameter set is not preserved exactly. -/
theorem C5_blank_param_cex :
    construct_paginated_url
        ⟨"https".toList, "www.sebi.gov.in".toList, "/p".toList, "foo=&a=1".toList⟩ 1 10
      = "https://www.sebi.gov.in/p?a=1&start=0&length=10&bm=normal".toList
  ∧ getParam (paginationParams "foo=&a=1".toList 1 10) "foo".toList = none := by
  refine ⟨by decide, by decide⟩

theorem seenExtends_refl (seen : List Str) (acc : List Entry) :
    SeenExtends seen acc seen acc :=
  ⟨[], by simp, by simp, by simp, by simp⟩

theorem seenExtends_trans {a c e : List Str} {b d f : List Entry}
    (h1 : SeenExtends a b c d) (h2 : SeenExtends c d e f) :
    SeenExtends a b e f := by
  obtain ⟨n1, hb1, hs1, hd1, hn1⟩ := h1
  obtain ⟨n2, hb2, hs2, hd2, hn2⟩ := h2
  refine ⟨n1 ++ n2, ?_, ?_, ?_, ?_⟩
  · rw [hb2, hb1, List.append_assoc]
  · rw [hs2, hs1, List.map_append, List.reverse_append, List.append_assoc]
  · intro u hu
    rw [List.map_append, List.mem_append] at hu
    rcases hu with hu | hu
    · exact hd1 u hu
    · have := hd2 u hu
      rw [hs1] at this
      intro ha
      exact this (List.mem_append_right _ ha)
  · rw [List.map_append, List.nodup_append]
    refine ⟨hn1, hn2, ?_⟩
    intro u hu1 hu2
    have := hd2 u hu2
    rw [hs1] at this
    exact this (List.mem_append_left _ (List.mem_reverse.mpr hu1))

/-- A per-folder extension starting from an empty collection extends any
already-collected manifest. -/
theorem seenExtends_shift {a e : List Str} {f : List Entry} (d : List Entry)
    (h : SeenExtends a [] e f) : SeenExtends a d e (d ++ f) := by
  obtain ⟨n, hb, hs, hd, hn⟩ := h
  simp only [List.nil_append] at hb
  exact ⟨n, by rw [hb], hs, hd, hn⟩

/-- Accepting one fresh URL extends the collection by exactly that entry. -/
theorem seenExtends_accept (seen : List Str) (acc : List Entry) (e : Entry)
    (h : e.url ∉ seen) : SeenExtends seen acc (e.url :: seen) (acc ++ [e]) :=
  ⟨[e], rfl, by simp, by simpa using h, by simp⟩

/-- Each row-processing step only extends the seen set and the entries. -/
theorem processRow_extends (cutoff : Option PDate) (resolve : Str → Option Str)
    (folderName : Str) (st : List Str × List Entry) (row : Row) :
    SeenExtends st.1 st.2 (processRow cutoff resolve folderName st row).1
      (processRow cutoff resolve folderName st row).2 := by
  have hrefl := seenExtends_refl st.1 st.2
  unfold processRow
  repeat' first
    | exact hrefl
    | exact seenExtends_accept st.1 st.2 _ (by assumption)
    | dsimp only
    | split

/-- Processing a page's rows only extends the seen set and the entries. -/
theorem foldl_processRow_extends (cutoff : Option PDate)
    (resolve : Str → Option Str) (folderName : Str) :
    ∀ (rows : List Row) (st : List Str × List Entry),
      SeenExtends st.1 st.2
        (rows.foldl (processRow cutoff resolve folderName) st).1
        (rows.foldl (processRow cutoff resolve folderName) st).2 := by
  intro rows
  induction rows with
  | nil => intro st; exact seenExtends_refl st.1 st.2
  | cons r t ih =>
    intro st
    simp only [List.foldl_cons]
    exact seenExtends_trans (processRow_extends cutoff resolve folderName st r)
      (ih (processRow cutoff resolve folderName st r))

/-- One loop iteration only extends the seen set and the entries. -/
theorem scrapeStep_extends (net : Nat → Option ListingPage)
    (cutoff : Option PDate) (resolve : Str → Option Str) (folderName : Str)
    (totalPages : Nat) (s : ScrapeState) :
    SeenExtends s.seen s.entries
      (stepState (scrapeStep net cutoff resolve folderName totalPages s)).seen
      (stepState (scrapeStep net cutoff resolve folderName totalPages s)).entries := by
  unfold scrapeStep
  by_cases hp : s.page > totalPages
  · rw [if_pos hp]
    exact seenExtends_refl s.seen s.entries
  · rw [if_neg hp]
    cases net s.fetchIdx with
    | none => exact seenExtends_refl s.seen s.entries
    | some pg =>
      dsimp only
      cases pg.trs with
      | none => exact seenExtends_refl s.seen s.entries
      | some trs =>
        dsimp only
        by_cases hr : (trs.drop 1).isEmpty = true
        · rw [if_pos hr]
          exact seenExtends_refl s.seen s.entries
        · rw [if_neg hr]
          exact foldl_processRow_extends cutoff resolve folderName
            (trs.drop 1) (s.seen, s.entries)

/-- The whole pagination loop only extends the seen set and the entries. -/
theorem scrapeLoop_extends (net : Nat → Option ListingPage)
    (cutoff : Option PDate) (resolve : Str → Option Str) (folderName : Str)
    (totalPages : Nat) :
    ∀ (fuel : Nat) (s s' : ScrapeState),
      scrapeLoop net cutoff resolve folderName totalPages fuel s = some s' →
      SeenExtends s.seen s.entries s'.seen s'.entries := by
  intro fuel
  induction fuel with
  | zero => intro s s' h; cases h
  | succ n ih =>
    intro s s' h
    have hext := scrapeStep_extends net cutoff resolve folderName totalPages s
    simp only [scrapeLoop] at h
    cases hst : scrapeStep net cutoff resolve folderName totalPages s with
    | finished s1 =>
      rw [hst] at h hext
      cases h
      simpa [stepState] using hext
    | next s1 =>
      rw [hst] at h hext
      simp only [stepState] at hext
      exact seenExtends_trans hext (ih s1 s' h)

/-- A folder scrape only extends the seen set, starting a fresh entry
collection. -/
theorem scrape_folder_extends (net : Nat → Option ListingPage)
    (cutoff : Option PDate) (resolve : Str → Option Str) (folderName : Str)
    (seen : List Str) (fuel : Nat) (entries : List Entry) (seen' : List Str)
    (evs : List SEv)
    (h : scrape_folder_page net cutoff resolve folderName seen fuel
      = some (entries, seen', evs)) :
    SeenExtends seen [] seen' entries := by
  unfold scrape_folder_page at h
  cases hnet : net 0 with
  | none =>
    rw [hnet] at h
    cases h
    exact seenExtends_refl seen []
  | some pg0 =>
    rw [hnet] at h
    dsimp only at h
    cases hloop : scrapeLoop net cutoff resolve folderName pg0.totalPagesInfo fuel
        ⟨1, 1, seen, [], [.fetchPage 1]⟩ with
    | none => rw [hloop] at h; cases h
    | some st =>
      rw [hloop] at h
      cases h
      exact scrapeLoop_extends net cutoff resolve folderName pg0.totalPagesInfo
        fuel ⟨1, 1, seen, [], [.fetchPage 1]⟩ st hloop

/-- Two folder extensions compose over the concatenated manifest. -/
theorem seenExtends_concat {a c e : List Str} {d f : List Entry}
    (h1 : SeenExtends a [] c d) (h2 : SeenExtends c [] e f) :
    SeenExtends a [] e (d ++ f) :=
  seenExtends_trans h1 (seenExtends_shift d h2)

/-- The whole run only extends the seen set; the download queue is exactly
one call per manifest row. -/
theorem runModel_extends (cutoff : Option PDate) :
    ∀ (folders : List FolderTask) (seen : List Str) (fuel : Nat)
      (manifest : List Entry) (seenF : List Str)
      (calls : List (Str × Str × Str)),
      runModel cutoff folders seen fuel = some (manifest, seenF, calls) →
      SeenExtends seen [] seenF manifest
      ∧ calls = manifest.map downloadCallOf := by
  intro folders
  induction folders with
  | nil =>
    intro seen fuel manifest seenF calls h
    cases h
    exact ⟨seenExtends_refl seen [], rfl⟩
  | cons f rest ih =>
    intro seen fuel manifest seenF calls h
    unfold runModel at h
    cases hf : scrape_folder_page f.net cutoff f.resolve f.name seen fuel with
    | none => rw [hf] at h; cases h
    | some r =>
      obtain ⟨entries, seen', evs⟩ := r
      rw [hf] at h
      dsimp only at h
      cases hr : runModel cutoff rest seen' fuel with
      | none => rw [hr] at h; cases h
      | some r2 =>
        obtain ⟨manifest2, seenF2, calls2⟩ := r2
        rw [hr] at h
        dsimp only at h
        obtain ⟨hext2, hcalls2⟩ := ih seen' fuel manifest2 seenF2 calls2 hr
        have hext1 := scrape_folder_extends f.net cutoff f.resolve f.name seen
          fuel entries seen' evs hf
        cases h
        refine ⟨seenExtends_concat hext1 hext2, ?_⟩
        rw [hcalls2, List.map_append]

/-- C4: within one run, the manifest never carries the same document URL
twice, exactly one download is queued per manifest row, the final seen set
is exactly the accepted URLs (in reverse acceptance order — nothing is
ever removed), and a URL already seen at the start of a run segment is
never re-accepted. -/
theorem C4_seen_dedup :
    (∀ (cutoff : Option PDate) (folders : List FolderTask) (fuel : Nat)
        (manifest : List Entry) (seenF : List Str)
        (calls : List (Str × Str × Str)),
      runModel cutoff folders [] fuel = some (manifest, seenF, calls) →
      (manifest.map Entry.url).Nodup
      ∧ seenF = (manifest.map Entry.url).reverse
      ∧ calls.map (fun cl => cl.1) = manifest.map Entry.url)
  ∧ (∀ (cutoff : Option PDate) (folders : List FolderTask) (seen₀ : List Str)
        (fuel : Nat) (manifest : List Entry) (seenF : List Str)
        (calls : List (Str × Str × Str)),
      runModel cutoff folders seen₀ fuel = some (manifest, seenF, calls) →
      (∀ u, u ∈ seen₀ → u ∈ seenF) ∧ ∀ e ∈ manifest, e.url ∉ seen₀) := by
  constructor
  · intro cutoff folders fuel manifest seenF calls h
    obtain ⟨hext, hcalls⟩ := runModel_extends cutoff folders [] fuel manifest seenF calls h
    obtain ⟨new, hacc, hseen, _hdisj, hnodup⟩ := hext
    simp only [List.nil_append] at hacc
    subst hacc
    refine ⟨hnodup, by simpa using hseen, ?_⟩
    rw [hcalls, List.map_map]
    rfl
  · intro cutoff folders seen₀ fuel manifest seenF calls h
    obtain ⟨hext, _⟩ := runModel_extends cutoff folders seen₀ fuel manifest seenF calls h
    obtain ⟨new, hacc, hseen, hdisj, _⟩ := hext
    simp only [List.nil_append] at hacc
    subst hacc
    constructor
    · intro u hu
      rw [hseen]
      exact List.mem_append_right _ hu
    · intro e he
      exact hdisj e.url (List.mem_map_of_mem Entry.url he)

/-- Concrete instance of `C4_seen_dedup`: two folders list the same URL and
the manifest keeps only the first occurrence, with one queued download. -/
theorem C4_seen_dedup_witness :
    ([entryLegal].map Entry.url).Nodup
  ∧ [urlX] = ([entryLegal].map Entry.url).reverse
  ∧ [downloadCallOf entryLegal].map (fun cl => cl.1) = [entryLegal].map Entry.url :=
  C4_seen_dedup.1 none dupFolders 4 [entryLegal] [urlX]
    [downloadCallOf entryLegal] rfl

/-- The pagination loop never terminates from a page (within the total)
whose fetches all fail: the failing iteration leaves the page unchanged. -/
theorem scrapeLoop_stuck (net : Nat → Option ListingPage) (cutoff : Option PDate)
    (resolve : Str → Option Str) (folderName : Str) (totalPages : Nat) :
    ∀ (fuel : Nat) (s : ScrapeState), s.page ≤ totalPages →
      (∀ i, s.fetchIdx ≤ i → net i = none) →
      scrapeLoop net cutoff resolve folderName totalPages fuel s = none := by
  intro fuel
  induction fuel with
  | zero => intro s _ _; rfl
  | succ n ih =>
    intro s hp hn
    simp only [scrapeLoop, scrapeStep]
    rw [if_neg (Nat.not_lt.mpr hp), hn s.fetchIdx le_rfl]
    exact ih
      { s with
        fetchIdx := s.fetchIdx + 1
        events := s.events ++ [.fetchPage s.page, .sleepS 5] }
      hp (fun i hi => hn i (Nat.le_of_succ_le hi))

/-- C1: on `netBad` the run never reaches its terminal state — the loop
catches each transport error, sleeps 5 seconds and retries the same page
without bound or advancement. -/
theorem C1_run_never_terminates : RunHangs none badFolders := by
  intro fuel
  have hfold : scrape_folder_page netBad none resolveNone "Legal".toList [] fuel
      = none := by
    unfold scrape_folder_page
    have h0 : netBad 0 = some pgStub := rfl
    rw [h0]
    dsimp only
    rw [scrapeLoop_stuck netBad none resolveNone "Legal".toList
      pgStub.totalPagesInfo fuel ⟨1, 1, [], [], [.fetchPage 1]⟩ (by decide) ?_]
    · rfl
    · intro i hi
      have hi1 : 1 ≤ i := hi
      have hne : (i == 0) = false := by
        simp only [beq_eq_false_iff_ne, ne_eq]
        omega
      simp [netBad, hne]
  show runModel none badFolders [] fuel = none
  unfold badFolders runModel
  dsimp only
  rw [hfold]

/-- C2 counterexample: after page 1's fetch fails and the single claimed
retry fails too, the loop does not give up on the page — a third retry
happens (four fetches of page 1 in all) and the page's row is still
scraped and accepted. -/
theorem C2_gives_up_cex :
    scrape_folder_page netC2 none resolveNone "Legal".toList [] 10
      = some ([entryLegal], [urlX],
          [SEv.fetchPage 1, SEv.fetchPage 1, SEv.sleepS 5, SEv.fetchPage 1,
           SEv.sleepS 5, SEv.fetchPage 1, SEv.sleepS 2])
  ∧ countFetchEv 1 [SEv.fetchPage 1, SEv.fetchPage 1, SEv.sleepS 5,
      SEv.fetchPage 1, SEv.sleepS 5, SEv.fetchPage 1, SEv.sleepS 2] = 4 :=
  ⟨rfl, rfl⟩

/-- C2 (amended): when a listing-page fetch fails with a transport error,
the loop sleeps a fixed 5-second delay and retries the same page — the page
number does not advance and the loop never gives the page up: while every
fetch keeps failing the loop keeps running (the error is caught and logged,
so it is not fatal to the run, but the folder never moves past the page). -/
theorem C2_failed_fetch_retries_same_page :
    (∀ (net : Nat → Option ListingPage) (cutoff : Option PDate)
        (resolve : Str → Option Str) (folderName : Str) (totalPages : Nat)
        (s : ScrapeState), s.page ≤ totalPages → net s.fetchIdx = none →
      scrapeStep net cutoff resolve folderName totalPages s
        = .next { s with
                  fetchIdx := s.fetchIdx + 1
                  events := s.events ++ [.fetchPage s.page, .sleepS 5] })
  ∧ (∀ (net : Nat → Option ListingPage) (cutoff : Option PDate)
        (resolve : Str → Option Str) (folderName : Str) (totalPages fuel : Nat)
        (s : ScrapeState),
      s.page ≤ totalPages → (∀ i, s.fetchIdx ≤ i → net i = none) →
      scrapeLoop net cutoff resolve folderName totalPages fuel s = none) := by
  constructor
  · intro net cutoff resolve folderName totalPages s hp hn
    unfold scrapeStep
    rw [if_neg (Nat.not_lt.mpr hp), hn]
  · intro net cutoff resolve folderName totalPages fuel s hp hn
    exact scrapeLoop_stuck net cutoff resolve folderName totalPages fuel s hp hn

/-- Concrete instances of `C2_failed_fetch_retries_same_page`: one failing
iteration stays on page 1 with a 5s sleep, and a persistently failing page
keeps the loop running past any fuel. -/
theorem C2_failed_fetch_retries_same_page_witness :
    scrapeStep netC2 none resolveNone "Legal".toList 1
        ⟨1, 1, [], [], [SEv.fetchPage 1]⟩
      = .next ⟨1, 2, [], [], [SEv.fetchPage 1, SEv.fetchPage 1, SEv.sleepS 5]⟩
  ∧ scrapeLoop netBad none resolveNone "Legal".toList 1 5 ⟨1, 1, [], [], []⟩
      = none := by
  constructor
  · have := C2_failed_fetch_retries_same_page.1 netC2 none resolveNone
      "Legal".toList 1 ⟨1, 1, [], [], [SEv.fetchPage 1]⟩ (by decide) rfl
    simpa using this
  · exact C2_failed_fetch_retries_same_page.2 netBad none resolveNone
      "Legal".toList 1 5 ⟨1, 1, [], [], []⟩ (by decide) (fun i hi => by
        have hi1 : 1 ≤ i := hi
        have hne : (i == 0) = false := by
          simp only [beq_eq_false_iff_ne, ne_eq]
          omega
        simp [netBad, hne])
